import Mathlib

/-!
Formal model of the Lokalise backend proxy core (credential and scope
resolution, upstream client error handling, upload payload codec, and the
translation aggregation pipeline). Each definition is a shallow embedding of
the corresponding TypeScript source: JavaScript objects are modelled as
association lists with replace-or-append assignment, JavaScript string
truthiness is modelled explicitly (the empty string is falsy), absent values
are Option, and upstream I/O outcomes are passed in as explicit Except
values.
-/

namespace LokaliseProxy

/-! ## JavaScript object and string primitives -/

/-- Lookup of a property on a JavaScript object modelled as an association
list: the first binding for the key wins (our construction never produces
duplicate keys). -/
def jsGet {α : Type} : List (String × α) → String → Option α
  | [], _ => none
  | p :: rest, k => if p.1 = k then some p.2 else jsGet rest k

/-- Property assignment on a JavaScript object: replaces the value at an
existing key in place, otherwise appends a new binding (JS insertion-order
semantics). -/
def jsSet {α : Type} : List (String × α) → String → α → List (String × α)
  | [], k, v => [(k, v)]
  | p :: rest, k, v => if p.1 = k then (k, v) :: rest else p :: jsSet rest k v

/-- In-place mutation of the object stored under an existing key, as done by
the statement obj[k1][k2] = v in the source. A missing key is a no-op here;
in every reachable state of the aggregator the key is present. -/
def jsModify {α : Type} (m : List (String × α)) (k : String) (f : α → α) :
    List (String × α) :=
  m.map (fun p => if p.1 = k then (p.1, f p.2) else p)

/-- JavaScript truthiness of a possibly-absent string value: undefined and
the empty string are falsy, every other string is truthy. -/
def jsTruthyStr : Option String → Bool
  | none => false
  | some s => if s = "" then false else true

/-- The JavaScript expression a or-else b on possibly-absent string values:
yields a when a is truthy, otherwise b. -/
def jsOrStr (a b : Option String) : Option String :=
  if jsTruthyStr a then a else b

/-- String.prototype.startsWith, expressed on the character list. -/
def jsStartsWith (s p : String) : Bool :=
  p.data.isPrefixOf s.data

/-- String.prototype.slice(n), expressed on the character list. -/
def jsSlice (s : String) (n : Nat) : String :=
  ⟨s.data.drop n⟩

/-! ## Credential resolution (src/src/middleware/auth.ts, validateLokaliseToken)

The routes import this module (src/src/middleware/auth.ts); the token
precedence there is: bearer-style Authorization header, then the
X-Api-Token header, then the Lokalise-Api-Token header, then the
process-environment fallback. -/

/-- The request headers consulted by validateLokaliseToken. A header that is
absent is none. -/
structure AuthHeaders where
  authorization : Option String
  xApiToken : Option String
  lokaliseApiToken : Option String

/-- The bearer extraction subexpression of auth.ts line 59: when the
Authorization header is present and starts with the literal prefix, the rest
of the header after the 7-character prefix; otherwise null. -/
def bearerToken (auth : Option String) : Option String :=
  match auth with
  | none => none
  | some h => if jsStartsWith h "Bearer " then some (jsSlice h 7) else none

/-- The full or-chain of auth.ts lines 59-63 resolving the API token. -/
def resolveApiToken (h : AuthHeaders) (envToken : Option String) : Option String :=
  jsOrStr (bearerToken h.authorization)
    (jsOrStr h.xApiToken (jsOrStr h.lokaliseApiToken envToken))

/-- Outcome of the authentication middleware: either an authenticated client
carrying the resolved token, or the 401 missing-token response. -/
inductive AuthOutcome where
  | authenticated (apiToken : String)
  | missingToken
deriving DecidableEq

/-- validateLokaliseToken of auth.ts lines 51-74: resolve the token through
the or-chain; a falsy result (absent, or the empty string) yields the 401
missing-token response, otherwise the request proceeds with the token. -/
def validateLokaliseToken (h : AuthHeaders) (envToken : Option String) : AuthOutcome :=
  match resolveApiToken h envToken with
  | none => .missingToken
  | some t => if t = "" then .missingToken else .authenticated t

/-! ## Scope resolution (src/src/middleware/auth.ts, requireProjectId) -/

/-- The request locations consulted by requireProjectId, in source order:
the URL path parameter, the request-body field, the query-string field
(German spelling projektId), and the value stored by an earlier middleware
stage. -/
structure ScopeSources where
  paramsProjectId : Option String
  bodyProjectId : Option String
  queryProjektId : Option String
  reqProjektId : Option String

/-- Outcome of the project-id middleware: the resolved id, or the 400
missing-scope response carrying the message and the list of accepted input
locations. -/
inductive ScopeOutcome where
  | resolved (projektId : String)
  | missingScope (message : String) (expectedFormats : List String)
deriving DecidableEq

/-- Error message of the 400 response of requireProjectId. -/
def missingScopeMessage : String :=
  "Project ID is required. Provide via URL parameter, request body, or query parameter."

/-- The expectedFormats list of the 400 response of requireProjectId, naming
every accepted input location. -/
def expectedScopeFormats : List String :=
  ["URL: /api/projects/\x7bprojectId\x7d",
   "Body: \x7b \"projectId\": \"your-project-id\" \x7d",
   "Query: ?projektId=your-project-id"]

/-- requireProjectId of auth.ts lines 124-156: the or-chain over the five
sources, failing with the missing-scope response when no source is truthy. -/
def requireProjectId (s : ScopeSources) (envProjectId : Option String) : ScopeOutcome :=
  match jsOrStr s.paramsProjectId
          (jsOrStr s.bodyProjectId
            (jsOrStr s.queryProjektId (jsOrStr s.reqProjektId envProjectId))) with
  | none => .missingScope missingScopeMessage expectedScopeFormats
  | some t => if t = "" then .missingScope missingScopeMessage expectedScopeFormats
              else .resolved t

/-! ## Upstream client request (src/src/lokalise-client.ts, request) -/

/-- Small JSON value model for response bodies. -/
inductive JVal where
  | str (s : String)
  | num (n : Int)
  | boolean (b : Bool)
  | null
  | arr (items : List JVal)
  | obj (fields : List (String × JVal))

/-- The fields of the parsed upstream error body consulted by request:
errorData.error?.message collapses to none when the error object or its
message field is absent, and errorData.message likewise. A body that fails
to parse gives both fields none. -/
structure ErrorBody where
  nestedErrorMessage : Option String
  topMessage : Option String

/-- One upstream HTTP response as observed by request: the ok flag, the
numeric status, the status text, the parsed error body (for the failure
path) and the parsed JSON body (for the success path). -/
structure HttpResponse where
  ok : Bool
  status : Nat
  statusText : String
  errorBody : ErrorBody
  jsonBody : JVal

/-- The message-selection or-chain of lokalise-client.ts line 72:
errorData.error?.message, else errorData.message, else response.statusText,
with JavaScript truthiness (an empty-string field falls through). -/
def pickErrorMessage (nested top : Option String) (statusText : String) : String :=
  match jsOrStr nested (jsOrStr top (some statusText)) with
  | some s => s
  | none => statusText

/-- The message of the Error thrown by request on a non-ok response
(lokalise-client.ts line 82). -/
def lokaliseErrorMessage (resp : HttpResponse) : String :=
  "Lokalise API error: " ++ toString resp.status ++ " - " ++
    pickErrorMessage resp.errorBody.nestedErrorMessage resp.errorBody.topMessage
      resp.statusText

/-- request of lokalise-client.ts lines 57-86, as a function of the single
upstream response it observes: a non-ok response throws the formatted error,
an ok response returns the parsed JSON body. -/
def request (resp : HttpResponse) : Except String JVal :=
  if resp.ok then .ok resp.jsonBody else .error (lokaliseErrorMessage resp)

/-- request consuming a queue of available upstream responses: exactly the
head response is used, whatever its status; the rest of the queue is
untouched (the client performs a single attempt and never retries). -/
def requestFromQueue (rs : List HttpResponse) :
    Option (Except String JVal × List HttpResponse) :=
  match rs with
  | [] => none
  | r :: rest => some (request r, rest)

/-- The error rendering of the route catch blocks
(src/src/routes/translations.ts lines 64-72): HTTP status 500 with the
thrown message passed through verbatim in the response body. -/
def routeErrorEnvelope (errMessage : String) : Nat × String :=
  (500, errMessage)

/-! ## Payload codec (src/src/lokalise-client.ts, uploadFile lines 207-224) -/

/-- Membership in the character class [A-Za-z0-9+/] of the detection regex. -/
def isB64Char (c : Char) : Bool :=
  c.isAlpha || c.isDigit || c = '+' || c = '/'

/-- Whole-string match of the regex used at line 213: one or more characters
of the base64 alphabet followed by zero or more trailing padding characters. -/
def matchesB64Regex (s : String) : Bool :=
  let l := s.data
  let content := l.takeWhile isB64Char
  !content.isEmpty && (l.drop content.length).all (fun c => c = '=')

/-- The already-encoded classification of uploadFile lines 211-213: the
string is longer than 100 characters and matches the base64 regex. The
classified strings are all ASCII, so the Lean codepoint length agrees with
the JavaScript length wherever the second conjunct can hold. -/
def isLikelyBase64 (s : String) : Bool :=
  decide (100 < s.length) && matchesB64Regex s

/-- UTF-8 encoding of one code point, as performed by Buffer.from(s, utf8). -/
def utf8EncodeChar (c : Char) : List Nat :=
  let n := c.toNat
  if n < 128 then [n]
  else if n < 2048 then [192 + n / 64, 128 + n % 64]
  else if n < 65536 then [224 + n / 4096, 128 + (n / 64) % 64, 128 + n % 64]
  else [240 + n / 262144, 128 + (n / 4096) % 64, 128 + (n / 64) % 64, 128 + n % 64]

/-- UTF-8 encoding of a character sequence. -/
def utf8Bytes : List Char → List Nat
  | [] => []
  | c :: cs => utf8EncodeChar c ++ utf8Bytes cs

/-- Character of the standard base64 alphabet at a given index. -/
def b64CharOf (n : Nat) : Char :=
  "ABCDEFGHIJKLMNOPQRSTUVWXYZabcdefghijklmnopqrstuvwxyz0123456789+/".data.getD n 'A'

/-- Standard base64 encoding of a byte sequence, three bytes to four output
characters, with trailing padding, as performed by Buffer.toString(base64). -/
def b64EncodeList : List Nat → List Char
  | [] => []
  | [a] => [b64CharOf (a / 4), b64CharOf (a % 4 * 16), '=', '=']
  | [a, b] => [b64CharOf (a / 4), b64CharOf (a % 4 * 16 + b / 16),
               b64CharOf (b % 16 * 4), '=']
  | a :: b :: c :: rest =>
      b64CharOf (a / 4) :: b64CharOf (a % 4 * 16 + b / 16) ::
        b64CharOf (b % 16 * 4 + c / 64) :: b64CharOf (c % 64) :: b64EncodeList rest

/-- The payload normalization inside uploadFile (lines 207-224): a string
classified as already base64 encoded is used as-is; every other string is
encoded from its UTF-8 bytes into standard base64. -/
def normalize (raw : String) : String :=
  if isLikelyBase64 raw then raw
  else ⟨b64EncodeList (utf8Bytes raw.data)⟩

/-! ## Translation aggregation
(src/src/lokalise-client.ts, getTranslationsFromKeys lines 327-400) -/

/-- One element of a key.translations array: the locale and the translated
text. A non-string or null translation value is modelled by the empty
string, which is exactly the falsy case of the insertion guard. -/
structure JsTranslation where
  language_iso : String
  translation : String

/-- The key_name field of an upstream key: either a plain string, or an
object keyed by platform, carried here as its entry list in insertion order
(so that Object.values order is the value projection). -/
inductive JsKeyName where
  | str (s : String)
  | obj (entries : List (String × String))

/-- One upstream translation key: its name and its optional translations
array. -/
structure JsKey where
  key_name : JsKeyName
  translations : Option (List JsTranslation)

/-- Display-name resolution of lines 360-362: a key name arriving as an
object is reduced to Object.values(...)[0]; an empty object gives the
JavaScript undefined, which coerces to the property key "undefined"; a plain
string is used as-is. -/
def resolveKeyName : JsKeyName → String
  | .str s => s
  | .obj entries => ((entries.map Prod.snd).head?).getD "undefined"

/-- The inner mapping from resolved key name to translated text. -/
abbrev InnerMap := List (String × String)

/-- The outer mapping from locale to inner mapping. -/
abbrev OuterMap := List (String × InnerMap)

/-- Lines 371-374: one translation entry of a key is inserted when its
locale is among the requested target locales and its text is truthy. -/
def processTranslation (locales : List String) (keyName : String)
    (m : OuterMap) (t : JsTranslation) : OuterMap :=
  if t.language_iso ∈ locales ∧ t.translation ≠ "" then
    jsModify m t.language_iso (fun inner => jsSet inner keyName t.translation)
  else m

/-- Lines 359-377: one upstream key is processed by resolving its display
name and folding its translations array (when it is an array) into the
locale map. -/
def processKey (locales : List String) (m : OuterMap) (k : JsKey) : OuterMap :=
  match k.translations with
  | some ts => ts.foldl (processTranslation locales (resolveKeyName k.key_name)) m
  | none => m

/-- Lines 353-356: the locale map is initialised with one empty inner
mapping per requested target locale. -/
def initLocales (locales : List String) : OuterMap :=
  locales.foldl (fun m l => jsSet m l []) []

/-- getTranslationsFromKeys (lines 327-400) as a function of the upstream
keys-request outcome: a thrown upstream error is caught and yields the empty
object (lines 390-399); an absent or empty keys array yields the empty
object (lines 345-348); otherwise the locale map is initialised for the
requested locales and every key is folded in. -/
def getTranslationsFromKeys (keysOutcome : Except String (Option (List JsKey)))
    (targetLocales : List String) : OuterMap :=
  match keysOutcome with
  | .error _ => []
  | .ok none => []
  | .ok (some keys) =>
    if keys.isEmpty then []
    else keys.foldl (processKey targetLocales) (initLocales targetLocales)

/-! ## Fetch-route pipeline
(src/unnamed/part_005 validateGetTranslations, src/src/routes/translations.ts) -/

/-- The request data consulted by validateGetTranslations: the three project
id locations and the targetLocales body field (none models an absent or
non-array value). -/
structure FetchRequestInfo where
  paramsProjectId : Option String
  bodyProjectId : Option String
  queryProjectId : Option String
  bodyTargetLocales : Option (List String)

/-- validateGetTranslations (part_005 lines 122-145): a falsy project id
fails with a 400, then an absent, non-array or empty targetLocales fails
with a 400; otherwise the request proceeds. -/
def validateGetTranslations (r : FetchRequestInfo) : Option String :=
  if jsTruthyStr (jsOrStr r.paramsProjectId
      (jsOrStr r.bodyProjectId r.queryProjectId)) = false then
    some "Project ID is required"
  else
    match r.bodyTargetLocales with
    | none => some "Target locales array is required and must contain at least one locale"
    | some ls =>
      if ls.isEmpty then
        some "Target locales array is required and must contain at least one locale"
      else none

/-- Outcome of the fetch route: a 400 validation error, or the aggregated
locale map. -/
inductive FetchRouteOutcome where
  | validationError (message : String)
  | success (data : OuterMap)

/-- The fetch route of translations.ts line 40: validateGetTranslations runs
before the handler, and only when it passes does the handler consult the
upstream (the returned flag records whether the upstream keys request was
performed). -/
def fetchTranslationsRoute (r : FetchRequestInfo)
    (upstream : Except String (Option (List JsKey))) : FetchRouteOutcome × Bool :=
  match validateGetTranslations r with
  | some msg => (.validationError msg, false)
  | none =>
    (.success (getTranslationsFromKeys upstream (r.bodyTargetLocales.getD [])), true)

/-! ## Project detail assembly (src/src/lokalise-client.ts, getProject lines 97-114) -/

/-- getProject as a function of the two upstream lookup outcomes, joined as
by Promise.all: when both succeed, the metadata fields are spread and the
languages field of the languages result (an array when present, defaulted to
the empty array otherwise) is assigned on top; when either lookup fails the
whole assembly fails with no partial merge. -/
def getProject (projectResult : Except String (List (String × JVal)))
    (languagesResult : Except String (Option (List JVal))) :
    Except String (List (String × JVal)) :=
  match projectResult, languagesResult with
  | .ok projectFields, .ok langs =>
      .ok (jsSet projectFields "languages" (.arr (langs.getD [])))
  | .error e, _ => .error e
  | .ok _, .error e => .error e

/-! ## Lemmas about the object primitives -/

theorem jsGet_jsSet {α : Type} (m : List (String × α)) (k : String) (v : α)
    (k' : String) :
    jsGet (jsSet m k v) k' = if k' = k then some v else jsGet m k' := by
  induction m with
  | nil =>
    by_cases h : k = k'
    · simp [jsSet, jsGet, h]
    · have h' : ¬ k' = k := fun hh => h hh.symm
      simp [jsSet, jsGet, h, h']
  | cons p rest ih =>
    simp only [jsSet]
    by_cases hpk : p.1 = k
    · rw [if_pos hpk]
      by_cases hk : k' = k
      · subst hk
        simp [jsGet]
      · have hk2 : ¬ k = k' := fun hh => hk hh.symm
        have hpk' : ¬ p.1 = k' := fun hh => hk (by rw [← hh, hpk])
        simp [jsGet, hk, hk2, hpk']
    · rw [if_neg hpk]
      by_cases hpk' : p.1 = k'
      · have hk : ¬ k' = k := fun hh => hpk (by rw [hpk', hh])
        simp [jsGet, hpk', hk]
      · simp [jsGet, hpk', ih]

theorem jsGet_jsModify {α : Type} (m : List (String × α)) (k : String)
    (f : α → α) (k' : String) :
    jsGet (jsModify m k f) k' = if k' = k then (jsGet m k').map f else jsGet m k' := by
  induction m with
  | nil => simp [jsModify, jsGet]
  | cons p rest ih =>
    simp only [jsModify, List.map_cons] at ih ⊢
    by_cases hpk' : p.1 = k'
    · by_cases hpk : p.1 = k
      · have hk : k' = k := by rw [← hpk', hpk]
        simp [jsGet, hpk, hpk', hk]
      · have hk : ¬ k' = k := fun hh => hpk (by rw [hpk', hh])
        simp [jsGet, hpk, hpk', hk]
    · by_cases hpk : p.1 = k
      · have hk2 : ¬ k = k' := fun hh => hpk' (by rw [hpk, hh])
        have hk3 : ¬ k' = k := fun hh => hk2 hh.symm
        simp [jsGet, hpk, hpk', hk2, hk3, ih]
      · simp [jsGet, hpk, hpk', ih]

theorem isSome_jsGet_jsModify {α : Type} (m : List (String × α)) (k : String)
    (f : α → α) (l : String) :
    (jsGet (jsModify m k f) l).isSome = (jsGet m l).isSome := by
  rw [jsGet_jsModify]
  split
  · cases jsGet m l <;> rfl
  · rfl

/-! ## Lemmas about the aggregation pipeline -/

theorem isSome_processTranslation (locales : List String) (keyName : String)
    (m : OuterMap) (t : JsTranslation) (l : String) :
    (jsGet (processTranslation locales keyName m t) l).isSome = (jsGet m l).isSome := by
  unfold processTranslation
  split
  · exact isSome_jsGet_jsModify m t.language_iso _ l
  · rfl

theorem isSome_foldl_processTranslation (locales : List String) (keyName : String)
    (l : String) :
    ∀ (ts : List JsTranslation) (m : OuterMap),
      (jsGet (ts.foldl (processTranslation locales keyName) m) l).isSome =
        (jsGet m l).isSome := by
  intro ts
  induction ts with
  | nil => intro m; rfl
  | cons t rest ih =>
    intro m
    rw [List.foldl_cons, ih, isSome_processTranslation]

theorem isSome_processKey (locales : List String) (m : OuterMap) (k : JsKey)
    (l : String) :
    (jsGet (processKey locales m k) l).isSome = (jsGet m l).isSome := by
  unfold processKey
  split
  · exact isSome_foldl_processTranslation locales _ l _ m
  · rfl

theorem isSome_foldl_processKey (locales : List String) (l : String) :
    ∀ (ks : List JsKey) (m : OuterMap),
      (jsGet (ks.foldl (processKey locales) m) l).isSome = (jsGet m l).isSome := by
  intro ks
  induction ks with
  | nil => intro m; rfl
  | cons k rest ih =>
    intro m
    rw [List.foldl_cons, ih, isSome_processKey]

theorem isSome_foldl_init (l : String) :
    ∀ (locales : List String) (m : OuterMap),
      ((jsGet (locales.foldl (fun m loc => jsSet m loc []) m) l).isSome = true) ↔
        (l ∈ locales ∨ (jsGet m l).isSome = true) := by
  intro locales
  induction locales with
  | nil => intro m; simp
  | cons loc rest ih =>
    intro m
    rw [List.foldl_cons, ih]
    constructor
    · rintro (h | h)
      · exact Or.inl (List.mem_cons_of_mem _ h)
      · rw [jsGet_jsSet] at h
        by_cases hl : l = loc
        · exact Or.inl (hl ▸ List.mem_cons_self _ _)
        · rw [if_neg hl] at h
          exact Or.inr h
    · rintro (h | h)
      · rcases List.mem_cons.mp h with h | h
        · right
          rw [jsGet_jsSet, if_pos h]
          rfl
        · exact Or.inl h
      · right
        rw [jsGet_jsSet]
        split
        · rfl
        · exact h

theorem isSome_initLocales (locales : List String) (l : String) :
    ((jsGet (initLocales locales) l).isSome = true) ↔ l ∈ locales := by
  unfold initLocales
  rw [isSome_foldl_init]
  simp [jsGet]

/-! ## Claim C1 -/

/-- Claim C1 (amended): when the upstream returns at least one key, the
aggregated mapping has an entry for a locale exactly when that locale was
requested (each requested locale is present, possibly with an empty inner
mapping, and no unrequested locale ever appears); when the upstream returns
zero keys, or the keys field is absent, the result is the empty object with
no per-locale entries (still not a failure). -/
theorem c1_requested_locales_domain :
    (∀ (ks : List JsKey), ks ≠ [] → ∀ (locales : List String) (l : String),
      ((jsGet (getTranslationsFromKeys (.ok (some ks)) locales) l).isSome = true ↔
        l ∈ locales))
    ∧ (∀ locales : List String, getTranslationsFromKeys (.ok (some [])) locales = [])
    ∧ (∀ locales : List String, getTranslationsFromKeys (.ok none) locales = []) := by
  refine ⟨?_, fun _ => rfl, fun _ => rfl⟩
  intro ks hks locales l
  match ks, hks with
  | k :: rest, _ =>
    simp only [getTranslationsFromKeys, List.isEmpty_cons, Bool.false_eq_true, if_false]
    rw [isSome_foldl_processKey]
    exact isSome_initLocales locales l

/-- Witness for C1: one concrete key and one requested locale, with the
requested locale present in the aggregated mapping. -/
theorem c1_requested_locales_domain_witness :
    (jsGet (getTranslationsFromKeys
        (.ok (some [⟨.str "k1", none⟩])) ["fr"]) "fr").isSome = true :=
  (c1_requested_locales_domain.1 [⟨.str "k1", none⟩] (List.cons_ne_nil _ _)
    ["fr"] "fr").mpr (by simp)

/-- Counterexample for C1 as stated: with zero upstream keys and requested
locales ["fr", "de"], the code returns the empty object, so the requested
locale "fr" is not present with an empty mapping. -/
theorem c1_zero_keys_counterexample :
    getTranslationsFromKeys (.ok (some [])) ["fr", "de"] = [] ∧
      jsGet (getTranslationsFromKeys (.ok (some [])) ["fr", "de"]) "fr" ≠ some [] :=
  ⟨rfl, by decide⟩

/-! ## Claim C4 -/

/-- Claim C4 (amended): when the upstream keys request fails, the failure is
caught and never propagated; the aggregator returns the empty object, which
has no entry for any requested locale (rather than one empty mapping per
requested locale). -/
theorem c4_upstream_failure_swallowed :
    ∀ (e : String) (locales : List String),
      getTranslationsFromKeys (.error e) locales = [] ∧
        ∀ l : String, jsGet (getTranslationsFromKeys (.error e) locales) l = none :=
  fun _ _ => ⟨rfl, fun _ => rfl⟩

/-- Counterexample for C4 as stated: during an upstream 500 with requested
locales ["fr", "de"], the result is the empty object and "fr" is absent,
not mapped to an empty mapping. -/
theorem c4_upstream_500_counterexample :
    getTranslationsFromKeys (.error "Lokalise API error: 500 - Internal Server Error")
        ["fr", "de"] = [] ∧
      jsGet (getTranslationsFromKeys
        (.error "Lokalise API error: 500 - Internal Server Error")
        ["fr", "de"]) "fr" ≠ some [] :=
  ⟨rfl, by decide⟩

/-! ## Claim C7 -/

/-- Claim C7: on the fetch route, an absent, non-array or empty
targetLocales set fails with a 400 validation error produced by
validateGetTranslations, and the upstream keys request is never performed. -/
theorem c7_empty_locales_fail_fast :
    ∀ (pp bp qp : Option String) (upstream : Except String (Option (List JsKey)))
      (tl : Option (List String)), tl = none ∨ tl = some [] →
      ((fetchTranslationsRoute ⟨pp, bp, qp, tl⟩ upstream).2 = false ∧
        ∃ msg, fetchTranslationsRoute ⟨pp, bp, qp, tl⟩ upstream =
          (.validationError msg, false)) := by
  intro pp bp qp upstream tl htl
  obtain ⟨msg, hmsg⟩ : ∃ msg, validateGetTranslations ⟨pp, bp, qp, tl⟩ = some msg := by
    unfold validateGetTranslations
    by_cases h : jsTruthyStr (jsOrStr pp (jsOrStr bp qp)) = false
    · exact ⟨_, by rw [if_pos h]⟩
    · rw [if_neg h]
      rcases htl with h' | h' <;> subst h' <;> exact ⟨_, rfl⟩
  constructor
  · simp [fetchTranslationsRoute, hmsg]
  · exact ⟨msg, by simp [fetchTranslationsRoute, hmsg]⟩

/-- Witness for C7: a concrete request with an empty targetLocales array
never reaches the upstream fetch. -/
theorem c7_empty_locales_fail_fast_witness :
    (fetchTranslationsRoute ⟨some "p1", none, none, some []⟩ (.ok none)).2 = false :=
  (c7_empty_locales_fail_fast (some "p1") none none (.ok none) (some [])
    (Or.inr rfl)).1

/-! ## Claim C8 -/

/-- Claim C8: a key name arriving as a single-entry object resolves to its
single value and a plain string resolves to itself; and whatever keys come
before them, when a later key resolves to the same display name for a
requested locale and carries a truthy text, that later key determines the
final text stored under the name (last write wins). -/
theorem c8_key_name_and_last_write_wins :
    (∀ (platform v : String), resolveKeyName (.obj [(platform, v)]) = v)
    ∧ (∀ s : String, resolveKeyName (.str s) = s)
    ∧ (∀ (pre : List JsKey) (locales : List String) (l : String), l ∈ locales →
        ∀ (n t1 t2 : String), t2 ≠ "" →
          jsGet ((jsGet (getTranslationsFromKeys
              (.ok (some (pre ++ [⟨.obj [("web", n)], some [⟨l, t1⟩]⟩,
                                  ⟨.str n, some [⟨l, t2⟩]⟩])))
              locales) l).getD []) n = some t2) := by
  refine ⟨fun _ _ => rfl, fun _ => rfl, ?_⟩
  intro pre locales l hl n t1 t2 ht2
  simp only [getTranslationsFromKeys]
  have hne : ((pre ++ [(⟨.obj [("web", n)], some [⟨l, t1⟩]⟩ : JsKey),
      ⟨.str n, some [⟨l, t2⟩]⟩]).isEmpty) = false := by
    cases pre <;> rfl
  rw [hne]
  simp only [Bool.false_eq_true, if_false]
  rw [List.foldl_append]
  simp only [List.foldl_cons, List.foldl_nil]
  generalize hmid : processKey locales
      (pre.foldl (processKey locales) (initLocales locales))
      (⟨.obj [("web", n)], some [⟨l, t1⟩]⟩ : JsKey) = m2
  have hdom2 : (jsGet m2 l).isSome = true := by
    rw [← hmid, isSome_processKey, isSome_foldl_processKey]
    exact (isSome_initLocales locales l).mpr hl
  obtain ⟨inner, hinner⟩ := Option.isSome_iff_exists.mp hdom2
  simp only [processKey, resolveKeyName, List.foldl_cons, List.foldl_nil,
    processTranslation]
  have hcond : (⟨l, t2⟩ : JsTranslation).language_iso ∈ locales ∧
      (⟨l, t2⟩ : JsTranslation).translation ≠ "" := ⟨hl, ht2⟩
  rw [if_pos hcond, jsGet_jsModify, if_pos rfl, hinner]
  simp [jsGet_jsSet]

/-- Witness for C8: two concrete colliding keys; the later key wins. -/
theorem c8_key_name_and_last_write_wins_witness :
    jsGet ((jsGet (getTranslationsFromKeys
        (.ok (some ([] ++ [⟨.obj [("web", "greeting")], some [⟨"fr", "a"⟩]⟩,
                    ⟨.str "greeting", some [⟨"fr", "b"⟩]⟩])))
        ["fr"]) "fr").getD []) "greeting" = some "b" :=
  c8_key_name_and_last_write_wins.2.2 [] ["fr"] "fr" (by simp) "greeting" "a" "b"
    (by decide)

/-! ## Lemmas about the header string operations -/

theorem jsStartsWith_append (p t : String) : jsStartsWith (p ++ t) p = true := by
  rw [jsStartsWith, String.data_append, List.isPrefixOf_iff_prefix]
  exact List.prefix_append _ _

theorem jsSlice_bearer (t : String) : jsSlice ("Bearer " ++ t) 7 = t := by
  rw [jsSlice, String.data_append]
  have h7 : "Bearer ".data.length = 7 := rfl
  rw [← h7, List.drop_left]

theorem jsOrStr_some_of_ne (t : String) (ht : t ≠ "") (b : Option String) :
    jsOrStr (some t) b = some t := by
  simp [jsOrStr, jsTruthyStr, ht]

theorem jsOrStr_none (b : Option String) : jsOrStr none b = b := rfl

theorem jsOrStr_some_empty (b : Option String) : jsOrStr (some "") b = b := by
  simp [jsOrStr, jsTruthyStr]

/-! ## Claim C2 -/

/-- Claim C2: credential resolution tries the bearer-style Authorization
header first, then the X-Api-Token header, then the Lokalise-Api-Token
header, then the environment fallback; a request supplying a (nonempty)
credential through exactly one source resolves to that value, and with
several sources present the earlier one wins; with no source at all the
request fails with the missing-token response. -/
theorem c2_credential_precedence :
    (∀ t : String, t ≠ "" →
      validateLokaliseToken ⟨some ("Bearer " ++ t), none, none⟩ none = .authenticated t)
    ∧ (∀ t : String, t ≠ "" →
      validateLokaliseToken ⟨none, some t, none⟩ none = .authenticated t)
    ∧ (∀ t : String, t ≠ "" →
      validateLokaliseToken ⟨none, none, some t⟩ none = .authenticated t)
    ∧ (∀ t : String, t ≠ "" →
      validateLokaliseToken ⟨none, none, none⟩ (some t) = .authenticated t)
    ∧ (∀ t1 : String, t1 ≠ "" → ∀ (x l e : Option String),
      validateLokaliseToken ⟨some ("Bearer " ++ t1), x, l⟩ e = .authenticated t1)
    ∧ (∀ t2 : String, t2 ≠ "" → ∀ (l e : Option String),
      validateLokaliseToken ⟨none, some t2, l⟩ e = .authenticated t2)
    ∧ (∀ t3 : String, t3 ≠ "" → ∀ (e : Option String),
      validateLokaliseToken ⟨none, none, some t3⟩ e = .authenticated t3)
    ∧ validateLokaliseToken ⟨none, none, none⟩ none = .missingToken := by
  refine ⟨?_, ?_, ?_, ?_, ?_, ?_, ?_, rfl⟩ <;> intro t ht <;> intros <;>
    simp [validateLokaliseToken, resolveApiToken, bearerToken, jsStartsWith_append,
      jsSlice_bearer, jsOrStr, jsTruthyStr, ht]

/-- Witness for C2: with every source present simultaneously, the bearer
header wins. -/
theorem c2_credential_precedence_witness :
    validateLokaliseToken ⟨some ("Bearer " ++ "tok123"), some "x", some "y"⟩
      (some "z") = .authenticated "tok123" :=
  c2_credential_precedence.2.2.2.2.1 "tok123" (by decide) (some "x") (some "y")
    (some "z")

/-! ## Claim C6 -/

/-- Claim C6: scope resolution tries the path parameter, then the
request-body field, then the query-string field, then the value stored by an
earlier middleware stage, then the environment fallback, the earlier source
winning; when nothing resolves, the middleware fails with the missing-scope
response that lists every accepted input location. -/
theorem c6_scope_precedence :
    (∀ t : String, t ≠ "" → ∀ (b q r e : Option String),
      requireProjectId ⟨some t, b, q, r⟩ e = .resolved t)
    ∧ (∀ t : String, t ≠ "" → ∀ (q r e : Option String),
      requireProjectId ⟨none, some t, q, r⟩ e = .resolved t)
    ∧ (∀ t : String, t ≠ "" → ∀ (r e : Option String),
      requireProjectId ⟨none, none, some t, r⟩ e = .resolved t)
    ∧ (∀ t : String, t ≠ "" → ∀ e : Option String,
      requireProjectId ⟨none, none, none, some t⟩ e = .resolved t)
    ∧ (∀ t : String, t ≠ "" →
      requireProjectId ⟨none, none, none, none⟩ (some t) = .resolved t)
    ∧ requireProjectId ⟨none, none, none, none⟩ none =
        .missingScope missingScopeMessage expectedScopeFormats := by
  refine ⟨?_, ?_, ?_, ?_, ?_, rfl⟩ <;> intro t ht <;> intros <;>
    simp [requireProjectId, jsOrStr, jsTruthyStr, ht]

/-- Witness for C6: with the path parameter and later sources all present,
the path parameter wins. -/
theorem c6_scope_precedence_witness :
    requireProjectId ⟨some "proj1", some "b", some "q", some "r"⟩ (some "env") =
      .resolved "proj1" :=
  c6_scope_precedence.1 "proj1" (by decide) (some "b") (some "q") (some "r")
    (some "env")

/-! ## Claim C10 -/

/-- Claim C10: an Authorization header that does not carry the exact bearer
format is ignored entirely by credential resolution, which behaves as if the
header were absent and falls through to the later sources; the same holds
for a bearer header with an empty value; and with no other source present
the request fails with the missing-token response despite the supplied
Authorization header. -/
theorem c10_non_bearer_auth_ignored :
    (∀ h : String, jsStartsWith h "Bearer " = false → ∀ (x l e : Option String),
      validateLokaliseToken ⟨some h, x, l⟩ e = validateLokaliseToken ⟨none, x, l⟩ e)
    ∧ (∀ (x l e : Option String),
      validateLokaliseToken ⟨some "Bearer ", x, l⟩ e =
        validateLokaliseToken ⟨none, x, l⟩ e)
    ∧ (∀ h : String, jsStartsWith h "Bearer " = false →
      validateLokaliseToken ⟨some h, none, none⟩ none = .missingToken) := by
  have key : ∀ h : String, jsStartsWith h "Bearer " = false → ∀ (x l e : Option String),
      validateLokaliseToken ⟨some h, x, l⟩ e = validateLokaliseToken ⟨none, x, l⟩ e := by
    intro h hs x l e
    simp [validateLokaliseToken, resolveApiToken, bearerToken, hs]
  refine ⟨key, ?_, ?_⟩
  · intro x l e
    have hb : bearerToken (some "Bearer ") = some "" := by decide
    have hbn : bearerToken none = none := rfl
    simp [validateLokaliseToken, resolveApiToken, hb, hbn,
      jsOrStr_some_empty, jsOrStr_none]
  · intro h hs
    rw [key h hs none none none]
    rfl

/-- Witness for C10: a bare token in the Authorization header with no other
source yields the missing-token response. -/
theorem c10_non_bearer_auth_ignored_witness :
    validateLokaliseToken ⟨some "raw-token-abc", none, none⟩ none = .missingToken :=
  c10_non_bearer_auth_ignored.2.2 "raw-token-abc" (by decide)

/-! ## Claim C5 -/

theorem jsOrStr_of_falsy (a b : Option String) (h : jsTruthyStr a = false) :
    jsOrStr a b = b := by
  simp [jsOrStr, h]

/-- Claim C5 (amended): on a non-ok upstream response, request fails with
the message built as Lokalise API error: status - selected, where selected
is the nested error.message field when present and nonempty, else the
top-level message field when present and nonempty, else the status text
(JavaScript truthiness: an empty-string field falls through); the upstream
status code is preserved inside that message; and exactly one response is
consumed from the upstream, with nothing retried. -/
theorem c5_upstream_error_message :
    ∀ resp : HttpResponse, resp.ok = false →
      ((∀ m : String, resp.errorBody.nestedErrorMessage = some m → m ≠ "" →
          request resp =
            .error ("Lokalise API error: " ++ toString resp.status ++ " - " ++ m))
      ∧ (jsTruthyStr resp.errorBody.nestedErrorMessage = false →
         ∀ m : String, resp.errorBody.topMessage = some m → m ≠ "" →
          request resp =
            .error ("Lokalise API error: " ++ toString resp.status ++ " - " ++ m))
      ∧ (jsTruthyStr resp.errorBody.nestedErrorMessage = false →
         jsTruthyStr resp.errorBody.topMessage = false →
          request resp =
            .error ("Lokalise API error: " ++ toString resp.status ++ " - " ++
              resp.statusText))
      ∧ (∀ rest : List HttpResponse,
          requestFromQueue (resp :: rest) = some (request resp, rest))) := by
  intro resp hok
  have hreq : request resp = .error (lokaliseErrorMessage resp) := by
    simp [request, hok]
  refine ⟨?_, ?_, ?_, fun _ => rfl⟩
  · intro m hm hne
    rw [hreq]
    unfold lokaliseErrorMessage pickErrorMessage
    rw [hm, jsOrStr_some_of_ne m hne]
  · intro hfalsy m hm hne
    rw [hreq]
    unfold lokaliseErrorMessage pickErrorMessage
    rw [jsOrStr_of_falsy _ _ hfalsy, hm, jsOrStr_some_of_ne m hne]
  · intro hfalsy1 hfalsy2
    rw [hreq]
    unfold lokaliseErrorMessage pickErrorMessage
    rw [jsOrStr_of_falsy _ _ hfalsy1, jsOrStr_of_falsy _ _ hfalsy2]

/-- Witness for C5: a concrete 404 whose body carries a nonempty nested
error message. -/
theorem c5_upstream_error_message_witness :
    request ⟨false, 404, "Not Found", ⟨some "No such project", none⟩, .null⟩ =
      .error ("Lokalise API error: " ++ toString (404 : Nat) ++ " - " ++
        "No such project") :=
  (c5_upstream_error_message
    ⟨false, 404, "Not Found", ⟨some "No such project", none⟩, .null⟩ rfl).1
    "No such project" rfl (by decide)

/-- Counterexample for C5 as stated: an error body whose nested
error.message field is present but empty is skipped by the code, which uses
the top-level message instead, whereas the claim selects the present nested
field. -/
theorem c5_empty_nested_message_counterexample :
    request ⟨false, 500, "Internal Server Error", ⟨some "", some "boom"⟩, .null⟩ =
      .error "Lokalise API error: 500 - boom" ∧
    (⟨false, 500, "Internal Server Error", ⟨some "", some "boom"⟩,
      .null⟩ : HttpResponse).errorBody.nestedErrorMessage = some "" ∧
    request ⟨false, 500, "Internal Server Error", ⟨some "", some "boom"⟩, .null⟩ ≠
      .error "Lokalise API error: 500 - " := by
  refine ⟨rfl, rfl, ?_⟩
  intro hcontra
  have hA : request
      (⟨false, 500, "Internal Server Error", ⟨some "", some "boom"⟩,
        .null⟩ : HttpResponse) =
      .error "Lokalise API error: 500 - boom" := rfl
  rw [hA] at hcontra
  injection hcontra with h
  exact absurd h (by decide)

/-! ## Claim C9 -/

/-- Claim C9: when both lookups succeed, getProject merges them flat: every
metadata field other than the attached languages field is preserved as-is,
and the languages array (defaulted to the empty array when the languages
lookup yields no array) is attached as a top-level field; when either lookup
fails, the whole assembly fails with no partial merge, in particular when
the metadata fetch fails while the languages fetch succeeded. -/
theorem c9_project_detail_assembly :
    (∀ (p : List (String × JVal)) (langs : Option (List JVal)),
      getProject (.ok p) (.ok langs) =
          .ok (jsSet p "languages" (.arr (langs.getD [])))
        ∧ (∀ k : String, k ≠ "languages" →
            jsGet (jsSet p "languages" (JVal.arr (langs.getD []))) k = jsGet p k)
        ∧ jsGet (jsSet p "languages" (JVal.arr (langs.getD []))) "languages" =
            some (.arr (langs.getD [])))
    ∧ (∀ (e : String) (langs : Option (List JVal)),
        getProject (.error e) (.ok langs) = .error e)
    ∧ (∀ (p : List (String × JVal)) (e : String),
        getProject (.ok p) (.error e) = .error e)
    ∧ (∀ e1 e2 : String, getProject (.error e1) (.error e2) = .error e1) := by
  refine ⟨?_, fun _ _ => rfl, fun _ _ => rfl, fun _ _ => rfl⟩
  intro p langs
  refine ⟨rfl, ?_, ?_⟩
  · intro k hk
    rw [jsGet_jsSet, if_neg hk]
  · rw [jsGet_jsSet, if_pos rfl]

/-- Witness for C9: a concrete metadata object keeps its name field after
the merge, with the languages lookup yielding no array. -/
theorem c9_project_detail_assembly_witness :
    jsGet (jsSet [("name", JVal.str "Demo")] "languages"
        (JVal.arr ((none : Option (List JVal)).getD []))) "name" =
      jsGet [("name", JVal.str "Demo")] "name" :=
  (c9_project_detail_assembly.1 [("name", JVal.str "Demo")] none).2.1 "name"
    (by decide)

/-! ## Claim C3 -/

theorem utf8EncodeChar_length_pos (c : Char) : 1 ≤ (utf8EncodeChar c).length := by
  simp only [utf8EncodeChar]
  split_ifs <;> simp

theorem utf8Bytes_length_ge : ∀ l : List Char, l.length ≤ (utf8Bytes l).length := by
  intro l
  induction l with
  | nil => simp [utf8Bytes]
  | cons c cs ih =>
    have := utf8EncodeChar_length_pos c
    simp only [utf8Bytes, List.length_append, List.length_cons]
    omega

theorem b64EncodeList_length_lb :
    ∀ bs : List Nat, bs ≠ [] → bs.length + 1 ≤ (b64EncodeList bs).length
  | [], h => absurd rfl h
  | [_], _ => by simp [b64EncodeList]
  | [_, _], _ => by simp [b64EncodeList]
  | [_, _, _], _ => by simp [b64EncodeList]
  | _ :: _ :: _ :: d :: rest, _ => by
      have ih := b64EncodeList_length_lb (d :: rest) (by simp)
      simp only [b64EncodeList, List.length_cons] at ih ⊢
      omega

theorem normalize_changes_of_not_base64 (s : String) (hs : s ≠ "")
    (hc : isLikelyBase64 s = false) : normalize s ≠ s := by
  unfold normalize
  rw [hc]
  simp only [Bool.false_eq_true, if_false]
  intro heq
  have hdata : b64EncodeList (utf8Bytes s.data) = s.data := congrArg String.data heq
  have hsd : s.data ≠ [] := fun h0 => hs (String.ext (by rw [h0]))
  have h1 : 0 < s.data.length := List.length_pos.mpr hsd
  have h2 := utf8Bytes_length_ge s.data
  have h3 : utf8Bytes s.data ≠ [] := by
    intro h0
    rw [h0] at h2
    simp only [List.length_nil] at h2
    omega
  have h4 := b64EncodeList_length_lb (utf8Bytes s.data) h3
  have h5 : (b64EncodeList (utf8Bytes s.data)).length = s.data.length :=
    congrArg List.length hdata
  omega

/-- Claim C3 (amended): a string classified as already encoded (longer than
100 characters and matching the base64 regex) is passed through unchanged;
every other string is encoded from its UTF-8 bytes into standard base64;
and for every nonempty input, pass-through-unchanged is equivalent to being
classified (the empty string alone takes the encode branch yet is left
unchanged, its base64 encoding being empty as well). -/
theorem c3_normalize_classification :
    ∀ s : String,
      (isLikelyBase64 s = true → normalize s = s)
      ∧ (isLikelyBase64 s = false →
          normalize s = ⟨b64EncodeList (utf8Bytes s.data)⟩)
      ∧ (s ≠ "" → (normalize s = s ↔ isLikelyBase64 s = true)) := by
  intro s
  refine ⟨?_, ?_, ?_⟩
  · intro h
    simp [normalize, h]
  · intro h
    simp [normalize, h]
  · intro hs
    constructor
    · intro heq
      by_contra hne
      have hc : isLikelyBase64 s = false := by
        cases hb : isLikelyBase64 s
        · rfl
        · exact absurd hb hne
      exact normalize_changes_of_not_base64 s hs hc heq
    · intro h
      simp [normalize, h]

/-- Witness for C3: the nonempty string hello is re-encoded, so the
equivalence instantiates concretely. -/
theorem c3_normalize_classification_witness :
    normalize "hello" = "hello" ↔ isLikelyBase64 "hello" = true :=
  (c3_normalize_classification "hello").2.2 (by decide)

/-- Counterexample for C3 as stated: the empty string fails the
classification (its length does not exceed 100), yet normalize leaves it
unchanged, refuting the only-if direction of the claimed equivalence. -/
theorem c3_empty_string_counterexample :
    normalize "" = "" ∧ isLikelyBase64 "" = false ∧ "".length ≤ 100 := by
  decide

end LokaliseProxy
